import Mathlib

/-!
Shallow embedding of `crates/gpui/src/platform/linux/wayland/window.rs`:
the Wayland window-lifecycle state machine of gpui.

Modelling choices:
* `Pixels` (an `f32` newtype in the source) is modelled as `Int`: every value
  flowing through the geometry paths verified here is constructed from an
  integer, and the paths use only `+`, `-`, comparison and the `as i32` cast
  (the identity on integral values).
* the fractional `scale` factor is modelled as `ℚ`.
* protocol requests sent to the compositor, renderer calls and callback
  invocations are recorded in an explicit `Effect` list; each event handler
  becomes a pure function from state (plus the callback registry) to
  state and effects.
* the `HashMap` of outputs is modelled as an association list in iteration
  order.
-/

namespace Wayland

/-- Model of `gpui::Point<Pixels>`. -/
structure Point where
  x : Int
  y : Int
deriving Repr, DecidableEq

/-- Model of `gpui::Size<Pixels>`. -/
structure Size where
  width : Int
  height : Int
deriving Repr, DecidableEq

/-- Model of `gpui::Bounds<Pixels>`. -/
structure Bounds where
  origin : Point
  size : Size
deriving Repr, DecidableEq

/-- Modelled from the spec: `Point::default()` (a derived Rust `Default`)
is the zero point; it is the origin installed by the configure-ack path. -/
def Point.default : Point := ⟨0, 0⟩

/-- Model of `Bounds::map_origin`, restricted to the constant-zero map used
at the single call site (`state.bounds.map_origin(|_| px(0.0))`). -/
def Bounds.map_origin_zero (b : Bounds) : Bounds :=
  { b with origin := ⟨0, 0⟩ }

/-- Modelled from the spec: `Bounds::inset` (defined in gpui's geometry
module, not in this file-set) shrinks bounds inward by the given amount on
every side: origin moves by `i`, each extent loses `2 * i`. -/
def Bounds.inset (b : Bounds) (i : Int) : Bounds :=
  { origin := ⟨b.origin.x + i, b.origin.y + i⟩,
    size := ⟨b.size.width - 2 * i, b.size.height - 2 * i⟩ }

/-- Per-edge tiling flags (`gpui::Tiling`). -/
structure Tiling where
  top : Bool
  bottom : Bool
  left : Bool
  right : Bool
deriving Repr, DecidableEq

/-- Modelled from the spec: `Tiling::default()` reports no tiled edge. -/
def Tiling.default : Tiling := ⟨false, false, false, false⟩

/-- Modelled from the spec: `Tiling::tiled()` is the fully tiled value,
all four edges set. -/
def Tiling.tiled : Tiling := ⟨true, true, true, true⟩

/-- Staged payload of a toplevel configure (`InProgressConfigure`). -/
structure InProgressConfigure where
  size : Option Size
  fullscreen : Bool
  maximized : Bool
  tiling : Tiling
deriving Repr, DecidableEq

/-- Compositor capability advertisement (`gpui::WindowControls`). -/
structure WindowControls where
  fullscreen : Bool
  maximize : Bool
  minimize : Bool
  window_menu : Bool
deriving Repr, DecidableEq

/-- Modelled from the spec: `WindowControls::default()` has every flag
cleared (derived Rust `Default`). -/
def WindowControls.default : WindowControls := ⟨false, false, false, false⟩

/-- Decoration mode (`gpui::WindowDecorations`). -/
inductive WindowDecorations
  | Client
  | Server
deriving Repr, DecidableEq

/-- Background appearance (`gpui::WindowBackgroundAppearance`). -/
inductive WindowBackgroundAppearance
  | Opaque
  | Transparent
  | Blurred
deriving Repr, DecidableEq

/-- Tracked output data; only the integer scale is relevant here. -/
structure Output where
  scale : Int
deriving Repr, DecidableEq

/-- Protocol object identity. -/
abbrev ObjectId := Nat

/-- Which shell-surface variant backs this window (`Surface`); the popup
variant is unimplemented in the source and never constructed. -/
inductive SurfaceKind
  | Xdg
  | Layer
deriving Repr, DecidableEq

/-- Pure translation of `compute_outer_size`: add the client-side inset back
on every edge not currently tiled. -/
def compute_outer_size (inset : Option Int) (new_size : Option Size)
    (tiling : Tiling) : Option Size :=
  match inset with
  | none => new_size
  | some inset =>
    new_size.map fun new_size₀ =>
      let s₁ : Size :=
        if !tiling.top then { new_size₀ with height := new_size₀.height + inset }
        else new_size₀
      let s₂ : Size :=
        if !tiling.bottom then { s₁ with height := s₁.height + inset } else s₁
      let s₃ : Size :=
        if !tiling.left then { s₂ with width := s₂.width + inset } else s₂
      let s₄ : Size :=
        if !tiling.right then { s₃ with width := s₃.width + inset } else s₃
      s₄

/-- Pure translation of `inset_by_tiling`: shrink bounds inward by `inset`
on every non-tiled edge. -/
def inset_by_tiling (bounds : Bounds) (inset : Int) (tiling : Tiling) :
    Bounds :=
  let b₁ : Bounds :=
    if !tiling.top then
      { bounds with origin := ⟨bounds.origin.x, bounds.origin.y + inset⟩,
                    size := ⟨bounds.size.width, bounds.size.height - inset⟩ }
    else bounds
  let b₂ : Bounds :=
    if !tiling.bottom then
      { b₁ with size := ⟨b₁.size.width, b₁.size.height - inset⟩ }
    else b₁
  let b₃ : Bounds :=
    if !tiling.left then
      { b₂ with origin := ⟨b₂.origin.x + inset, b₂.origin.y⟩,
                size := ⟨b₂.size.width - inset, b₂.size.height⟩ }
    else b₂
  let b₄ : Bounds :=
    if !tiling.right then
      { b₃ with size := ⟨b₃.size.width - inset, b₃.size.height⟩ }
    else b₃
  b₄

/-- The window geometry the xdg ack path declares to the compositor:
`inset_by_tiling` on the zero-origin bounds, each component cast to `i32`
(the identity in the integral model), sizes clamped below by 1. -/
def declared_window_geometry (bounds : Bounds) (inset : Int)
    (tiling : Tiling) : Bounds :=
  let g := inset_by_tiling bounds.map_origin_zero inset tiling
  { g with size := ⟨if g.size.width ≤ 0 then 1 else g.size.width,
                    if g.size.height ≤ 0 then 1 else g.size.height⟩ }

/-- Selection reported by an input handler; `stop` models the Rust range
field `end`. -/
structure SelectedRange where
  reversed : Bool
  start : Nat
  stop : Nat

/-- Model of the attached `PlatformInputHandler`: the query operations the
window calls on it, as pure response functions. -/
structure PlatformInputHandler where
  marked_text_range : Option (Nat × Nat)
  selected_text_range : Bool → Option SelectedRange
  bounds_for_range : Nat × Nat → Option Bounds

/-- Model of `WaylandWindowState`: the fields read or written by the
operations under verification. Protocol-object handles are reduced to
presence flags (`viewport`, `blur`, `blur_manager`). -/
structure WaylandWindowState where
  acknowledged_first_configure : Bool
  surface : SurfaceKind
  viewport : Bool
  outputs : List (ObjectId × Output)
  display : Option (ObjectId × Output)
  bounds : Bounds
  scale : ℚ
  input_handler : Option PlatformInputHandler
  decorations : WindowDecorations
  background_appearance : WindowBackgroundAppearance
  fullscreen : Bool
  maximized : Bool
  tiling : Tiling
  window_bounds : Bounds
  in_progress_configure : Option InProgressConfigure
  in_progress_window_controls : Option WindowControls
  window_controls : WindowControls
  inset : Option Int
  blur : Bool
  blur_manager : Bool

/-- Model of `WaylandWindowState::new` for the fields tracked here; the
window starts unacknowledged, unscaled, windowed, with `window_bounds`
equal to the requested bounds. -/
def WaylandWindowState.new (surface : SurfaceKind) (viewport : Bool)
    (blur_manager : Bool) (bounds : Bounds) : WaylandWindowState :=
  { acknowledged_first_configure := false
    surface := surface
    viewport := viewport
    outputs := []
    display := none
    bounds := bounds
    scale := 1
    input_handler := none
    decorations := .Client
    background_appearance := .Opaque
    fullscreen := false
    maximized := false
    tiling := .default
    window_bounds := bounds
    in_progress_configure := none
    in_progress_window_controls := none
    window_controls := .default
    inset := none
    blur := false
    blur_manager := blur_manager }

/-- Translation of `WaylandWindowState::is_transparent`. -/
def is_transparent (s : WaylandWindowState) : Bool :=
  decide (s.decorations = .Client)
    || decide (s.background_appearance ≠ .Opaque)

/-- Loop body of `primary_output_scale` acting on the display candidate:
install the output when there is no candidate, replace the candidate only
when the output's scale is strictly greater. -/
def select_output (current : Option (ObjectId × Output))
    (p : ObjectId × Output) : Option (ObjectId × Output) :=
  match current with
  | some q => if p.2.scale > q.2.scale then some p else some q
  | none => some p

/-- Translation of `WaylandWindowState::primary_output_scale`: one pass over
`outputs` simultaneously maximising the scale (seeded with 1) and updating
the display candidate (seeded with the taken `display`, replaced only on a
strictly greater scale); returns the scale and writes the candidate back. -/
def primary_output_scale (s : WaylandWindowState) :
    Int × WaylandWindowState :=
  let r := s.outputs.foldl
    (fun (acc : Int × Option (ObjectId × Output)) p =>
      (max acc.1 p.2.scale, select_output acc.2 p))
    (1, s.display)
  (r.1, { s with display := r.2 })

/-- Specification predicate: `m` occurs in `L`, every element of `L` has
scale at most `m`'s, and every element before `m`'s occurrence has a
strictly smaller scale — `m` is the first maximal-scale entry of `L`. -/
def IsFirstMax (L : List (ObjectId × Output)) (m : ObjectId × Output) :
    Prop :=
  ∃ l₁ l₂, L = l₁ ++ m :: l₂ ∧ (∀ q ∈ l₁, q.2.scale < m.2.scale) ∧
    ∀ q ∈ L, q.2.scale ≤ m.2.scale

/-- Model of `PlatformInput`: only key-down events with an optional resolved
character are distinguished by the code under verification. -/
inductive PlatformInput
  | keyDown (key_char : Option String)
  | other

/-- IME operations forwarded by the client (`ImeInput`). -/
inductive ImeInput
  | InsertText (text : String)
  | SetMarkedText (text : String)
  | UnmarkText
  | DeleteText

/-- Callback registry (`Callbacks`): presence flags for the handlers the
verified paths may invoke; the should-close predicate is modelled by the
boolean it returns, the input callback by the propagate flag it returns. -/
structure Callbacks where
  request_frame : Bool
  input : Option (PlatformInput → Bool)
  resize : Bool
  should_close : Option Bool
  close : Bool
  appearance_changed : Bool

/-- Observable actions: protocol requests, renderer calls and callback
invocations, in program order. -/
inductive Effect
  | frameCallbackRequested
  | requestFrameCallbackInvoked
  | ackConfigure (serial : Nat)
  | setWindowGeometry (x y width height : Int)
  | layerSetSize (width height : Nat)
  | appearanceChanged
  | rendererUpdateDrawableSize (width height : ℚ)
  | resizeCallback (sz : Size) (scale : ℚ)
  | viewportSetDestination (width height : Int)
  | rendererUpdateTransparency (transparent : Bool)
  | setOpaqueRegion (region : Option Bounds)
  | blurCreated
  | blurCommitted
  | blurUnset
  | blurReleased
  | shouldCloseInvoked (result : Bool)
  | closeCallbackInvoked
  | inputCallbackInvoked
  | replaceTextInRange (range : Option (Nat × Nat)) (text : String)
  | replaceAndMarkTextInRange (range : Option (Nat × Nat)) (text : String)
  | unmarkText
deriving Repr, DecidableEq

/-- Modelled from the spec: `Bounds::to_device_pixels` recomputes
device-pixel bounds from logical bounds and the scale factor, componentwise
multiplication by `scale`. -/
def to_device_pixels (sz : Size) (scale : ℚ) : ℚ × ℚ :=
  ((sz.width : ℚ) * scale, (sz.height : ℚ) * scale)

/-- Translation of `WaylandWindowStatePtr::set_size_and_scale`: the single
funnel for geometry changes; early return when every provided argument
matches the current state. -/
def set_size_and_scale (cb : Callbacks) (s : WaylandWindowState)
    (size : Option Size) (scale : Option ℚ) :
    WaylandWindowState × List Effect :=
  if (size.all fun sz => decide (sz = s.bounds.size))
      && (scale.all fun sc => decide (sc = s.scale)) then
    (s, [])
  else
    let s₁ := match size with
      | some sz => { s with bounds := { s.bounds with size := sz } }
      | none => s
    let s₂ := match scale with
      | some sc => { s₁ with scale := sc }
      | none => s₁
    let device := to_device_pixels s₂.bounds.size s₂.scale
    (s₂,
      [.rendererUpdateDrawableSize device.1 device.2]
        ++ (if cb.resize then [.resizeCallback s₂.bounds.size s₂.scale] else [])
        ++ (if s₂.viewport then
              [.viewportSetDestination s₂.bounds.size.width s₂.bounds.size.height]
            else []))

/-- Translation of `WaylandWindowStatePtr::resize`. -/
def resize (cb : Callbacks) (s : WaylandWindowState) (size : Size) :
    WaylandWindowState × List Effect :=
  set_size_and_scale cb s (some size) none

/-- Translation of `WaylandWindowStatePtr::rescale`. -/
def rescale (cb : Callbacks) (s : WaylandWindowState) (scale : ℚ) :
    WaylandWindowState × List Effect :=
  set_size_and_scale cb s none (some scale)

/-- Translation of `WaylandWindowStatePtr::frame`: request a compositor
frame callback, then invoke the registered frame-request callback. -/
def frame (cb : Callbacks) : List Effect :=
  [.frameCallbackRequested]
    ++ (if cb.request_frame then [.requestFrameCallbackInvoked] else [])

/-- Step 1 of the xdg configure handler: commit a pending window-controls
advertisement and fire the appearance-changed callback. -/
def commit_window_controls (cb : Callbacks) (s : WaylandWindowState) :
    WaylandWindowState × List Effect :=
  match s.in_progress_window_controls with
  | some wc =>
    ({ s with window_controls := wc, in_progress_window_controls := none },
      if cb.appearance_changed then [.appearanceChanged] else [])
  | none => (s, [])

/-- Step 2 of the xdg configure handler: commit a pending configure payload
— latch fullscreen/maximized/tiling, recompute `window_bounds` when leaving
fullscreen/maximized (restoring the saved size on un-maximize), and drive
the resulting size through the resize path. -/
def commit_configure (cb : Callbacks) (s : WaylandWindowState) :
    WaylandWindowState × List Effect :=
  match s.in_progress_configure with
  | some configure =>
    let got_unmaximized := s.maximized && !configure.maximized
    let sA := { s with fullscreen := configure.fullscreen,
                       maximized := configure.maximized,
                       tiling := configure.tiling,
                       in_progress_configure := none }
    let csize : Option Size :=
      if !configure.fullscreen && !configure.maximized then
        if got_unmaximized then some sA.window_bounds.size
        else compute_outer_size sA.inset configure.size sA.tiling
      else configure.size
    let sB :=
      if !configure.fullscreen && !configure.maximized then
        match csize with
        | some sz =>
          { sA with window_bounds := ⟨Point.default, sz⟩ }
        | none => sA
      else sA
    match csize with
    | some sz => resize cb sB sz
    | none => (sB, [])
  | none => (s, [])

/-- Steps 3-5 of the xdg configure handler: acknowledge the serial, declare
the window geometry, and on the very first acknowledgment request the
initial frame callback. -/
def ack_and_finish (cb : Callbacks) (s : WaylandWindowState) (serial : Nat) :
    WaylandWindowState × List Effect :=
  let g := declared_window_geometry s.bounds (s.inset.getD 0) s.tiling
  let e := [Effect.ackConfigure serial,
            Effect.setWindowGeometry g.origin.x g.origin.y
              g.size.width g.size.height]
  if !s.acknowledged_first_configure then
    ({ s with acknowledged_first_configure := true }, e ++ frame cb)
  else (s, e)

/-- Translation of `handle_xdg_surface_event` for the `Configure` event;
no-op (with a logged error) when the surface is not the xdg variant. -/
def handle_xdg_surface_event (cb : Callbacks) (s : WaylandWindowState)
    (serial : Nat) : WaylandWindowState × List Effect :=
  if s.surface ≠ .Xdg then (s, [])
  else
    let r₁ := commit_window_controls cb s
    let r₂ := commit_configure cb r₁.1
    let r₃ := ack_and_finish cb r₂.1 serial
    (r₃.1, r₁.2 ++ r₂.2 ++ r₃.2)

/-- Translation of `handle_layer_surface` for the `Configure` event;
no-op (with a logged error) when the surface is not the layer variant. -/
def handle_layer_surface (cb : Callbacks) (s : WaylandWindowState)
    (serial : Nat) (width height : Nat) : WaylandWindowState × List Effect :=
  if s.surface ≠ .Layer then (s, [])
  else
    let e := [Effect.ackConfigure serial, Effect.layerSetSize width height]
    if !s.acknowledged_first_configure then
      ({ s with acknowledged_first_configure := true }, e ++ frame cb)
    else (s, e)

/-- Decoded `xdg_toplevel` state flags carried by a toplevel configure. -/
inductive XdgToplevelState
  | Maximized
  | Fullscreen
  | TiledTop
  | TiledLeft
  | TiledRight
  | TiledBottom
  | OtherState
deriving Repr, DecidableEq

/-- Decoded `xdg_toplevel` capability flags. -/
inductive WmCapability
  | Maximize
  | Minimize
  | Fullscreen
  | WindowMenu
  | OtherCapability
deriving Repr, DecidableEq

/-- Decode loop of the toplevel `Configure` arm: fold the state flags into
maximized/fullscreen and per-edge tiling. -/
def decode_toplevel_states (states : List XdgToplevelState) :
    Bool × Bool × Tiling :=
  states.foldl
    (fun acc st =>
      match st with
      | .Maximized => (acc.1, true, acc.2.2)
      | .Fullscreen => (true, acc.2.1, acc.2.2)
      | .TiledTop => (acc.1, acc.2.1, { acc.2.2 with top := true })
      | .TiledLeft => (acc.1, acc.2.1, { acc.2.2 with left := true })
      | .TiledRight => (acc.1, acc.2.1, { acc.2.2 with right := true })
      | .TiledBottom => (acc.1, acc.2.1, { acc.2.2 with bottom := true })
      | .OtherState => acc)
    (false, false, Tiling.default)

/-- Toplevel events handled by `handle_toplevel_event`. -/
inductive ToplevelEvent
  | Configure (width height : Int) (states : List XdgToplevelState)
  | Close
  | WmCapabilities (capabilities : List WmCapability)

/-- Translation of `handle_toplevel_event`: stages configure payloads and
capability advertisements, and answers close requests; the returned flag
reports whether the window should close. -/
def handle_toplevel_event (cb : Callbacks) (s : WaylandWindowState)
    (event : ToplevelEvent) :
    Callbacks × WaylandWindowState × Bool × List Effect :=
  match event with
  | .Configure width height states =>
    let size : Option Size :=
      if width = 0 || height = 0 then none else some ⟨width, height⟩
    let (fullscreen, maximized, tiling₀) := decode_toplevel_states states
    let tiling := if fullscreen || maximized then Tiling.tiled else tiling₀
    let payload : InProgressConfigure := ⟨size, fullscreen, maximized, tiling⟩
    (cb, { s with in_progress_configure := some payload }, false, [])
  | .Close =>
    match cb.should_close with
    | some result =>
      if result then
        -- `self.close()` takes and invokes the registered close callback.
        ({ cb with close := false }, s, result,
          [.shouldCloseInvoked result]
            ++ (if cb.close then [.closeCallbackInvoked] else []))
      else (cb, s, result, [.shouldCloseInvoked result])
    | none => (cb, s, true, [])
  | .WmCapabilities capabilities =>
    let wc := capabilities.foldl
      (fun (acc : WindowControls) c =>
        match c with
        | .Maximize => { acc with maximize := true }
        | .Minimize => { acc with minimize := true }
        | .Fullscreen => { acc with fullscreen := true }
        | .WindowMenu => { acc with window_menu := true }
        | .OtherCapability => acc)
      WindowControls.default
    (cb, { s with in_progress_window_controls := some wc }, false, [])

/-- Opaque area computed by `update_window`: the window bounds, shrunk by
the client inset when one is set. -/
def opaque_area (s : WaylandWindowState) : Bounds :=
  match s.inset with
  | some i => s.window_bounds.inset i
  | none => s.window_bounds

/-- Translation of the free function `update_window`: refresh renderer
transparency, declare or clear the opaque region, and reconcile blur. -/
def update_window (s : WaylandWindowState) :
    WaylandWindowState × List Effect :=
  let isOpaque := !is_transparent s
  let e₁ := [Effect.rendererUpdateTransparency (!isOpaque)]
  let region := opaque_area s
  let e₂ :=
    if s.background_appearance = .Opaque ∧ s.decorations = .Server then
      [Effect.setOpaqueRegion (some region)]
    else
      [Effect.setOpaqueRegion none]
  if s.blur_manager then
    if s.background_appearance = .Blurred then
      ({ s with blur := true },
        e₁ ++ e₂ ++ (if !s.blur then [.blurCreated] else []) ++ [.blurCommitted])
    else
      ({ s with blur := false },
        e₁ ++ e₂ ++ [.blurUnset] ++ (if s.blur then [.blurReleased] else []))
  else (s, e₁ ++ e₂)

/-- Translation of `handle_ime`: detach the input handler, forward the
operation, reattach; silently a no-op when no handler is attached. -/
def handle_ime (s : WaylandWindowState) (ime : ImeInput) :
    WaylandWindowState × List Effect :=
  match s.input_handler with
  | some input_handler =>
    let s₁ := { s with input_handler := none }
    let effects : List Effect :=
      match ime with
      | .InsertText text => [.replaceTextInRange none text]
      | .SetMarkedText text => [.replaceAndMarkTextInRange none text]
      | .UnmarkText => [.unmarkText]
      | .DeleteText =>
        match input_handler.marked_text_range with
        | some marked => [.replaceTextInRange (some marked) ""]
        | none => []
    ({ s₁ with input_handler := some input_handler }, effects)
  | none => (s, [])

/-- Translation of `get_ime_area`: query the handler's selection and report
the caret edge's bounds; `none` when no handler is attached. -/
def get_ime_area (s : WaylandWindowState) :
    WaylandWindowState × Option Bounds :=
  match s.input_handler with
  | some input_handler =>
    let s₁ := { s with input_handler := none }
    let bounds : Option Bounds :=
      match input_handler.selected_text_range true with
      | some selection =>
        input_handler.bounds_for_range
          (if selection.reversed then (selection.start, selection.start)
           else (selection.stop, selection.stop))
      | none => none
    ({ s₁ with input_handler := some input_handler }, bounds)
  | none => (s, none)

/-- Translation of `handle_input`: run the input callback; unless it stops
propagation, forward a key-down's resolved character to the attached input
handler (detach/reattach). -/
def handle_input (cb : Callbacks) (s : WaylandWindowState)
    (input : PlatformInput) : WaylandWindowState × List Effect :=
  let (stop, e₀) : Bool × List Effect :=
    match cb.input with
    | some f => (!(f input), [.inputCallbackInvoked])
    | none => (false, [])
  if stop then (s, e₀)
  else
    match input with
    | .keyDown (some key_char) =>
      match s.input_handler with
      | some input_handler =>
        let s₁ := { s with input_handler := none }
        ({ s₁ with input_handler := some input_handler },
          e₀ ++ [.replaceTextInRange none key_char])
      | none => (s, e₀)
    | _ => (s, e₀)

/-- Union of the window events driven through the trace semantics. -/
inductive WEvent
  | xdgConfigure (serial : Nat)
  | layerConfigure (serial : Nat) (width height : Nat)
  | toplevel (event : ToplevelEvent)

/-- One event-dispatch step of the window controller. -/
def step (cb : Callbacks) (s : WaylandWindowState) (e : WEvent) :
    Callbacks × WaylandWindowState × List Effect :=
  match e with
  | .xdgConfigure serial =>
    let r := handle_xdg_surface_event cb s serial
    (cb, r.1, r.2)
  | .layerConfigure serial width height =>
    let r := handle_layer_surface cb s serial width height
    (cb, r.1, r.2)
  | .toplevel event =>
    let r := handle_toplevel_event cb s event
    (r.1, r.2.1, r.2.2.2)

/-- Run a sequence of events, accumulating the emitted effects. -/
def run (cb : Callbacks) (s : WaylandWindowState) :
    List WEvent → Callbacks × WaylandWindowState × List Effect
  | [] => (cb, s, [])
  | e :: es =>
    let r := step cb s e
    let rr := run r.1 r.2.1 es
    (rr.1, rr.2.1, r.2.2 ++ rr.2.2)

/-- Effects that reach the attached text-input handler. -/
def Effect.is_text_input : Effect → Bool
  | .replaceTextInRange _ _ => true
  | .replaceAndMarkTextInRange _ _ => true
  | .unmarkText => true
  | _ => false

/-- Number of compositor frame-callback requests in an effect list. -/
def countFrameRequests (l : List Effect) : Nat :=
  l.countP fun e =>
    match e with
    | .frameCallbackRequested => true
    | _ => false

/-- Whether an event is an acknowledged configure for a window backed by the
given surface variant: the xdg path for xdg windows, the layer path for
layer windows (a mismatched event is logged and dropped by the source). -/
def isAckEvent (kind : SurfaceKind) : WEvent → Bool
  | .xdgConfigure _ => decide (kind = .Xdg)
  | .layerConfigure _ _ _ => decide (kind = .Layer)
  | .toplevel _ => false

/-- Sample outer bounds with a non-zero origin, as a window may request. -/
def sampleBounds : Bounds := ⟨⟨10, 10⟩, ⟨300, 200⟩⟩

/-- Sample xdg window freshly created with `sampleBounds` and a viewport. -/
def baseState : WaylandWindowState :=
  WaylandWindowState.new .Xdg true false sampleBounds

/-- Empty callback registry. -/
def noCallbacks : Callbacks :=
  { request_frame := false, input := none, resize := false,
    should_close := none, close := false, appearance_changed := false }

/-- A maximized window (with a client inset) whose pending configure leaves
maximized with a compositor-suggested size. -/
def cxState : WaylandWindowState :=
  { baseState with
      maximized := true,
      inset := some 5,
      in_progress_configure :=
        some ⟨some ⟨800, 600⟩, false, false, Tiling.default⟩ }

/-- A window whose `display` points at an output that is no longer in
`outputs` and whose scale exceeds every tracked output's scale. -/
def staleState : WaylandWindowState :=
  { baseState with display := some (0, ⟨3⟩), outputs := [(1, ⟨2⟩)] }

lemma set_size_and_scale_shape (cb : Callbacks) (s : WaylandWindowState)
    (size : Option Size) (scale : Option ℚ) :
    ∃ b sc, (set_size_and_scale cb s size scale).1 =
      { s with bounds := b, scale := sc } := by
  unfold set_size_and_scale
  split
  · exact ⟨s.bounds, s.scale, rfl⟩
  · rcases size with _ | sz <;> rcases scale with _ | sc₀ <;> exact ⟨_, _, rfl⟩

lemma set_size_and_scale_window_bounds (cb : Callbacks)
    (s : WaylandWindowState) (size : Option Size) (scale : Option ℚ) :
    (set_size_and_scale cb s size scale).1.window_bounds = s.window_bounds := by
  obtain ⟨b, sc, h⟩ := set_size_and_scale_shape cb s size scale
  rw [h]

lemma set_size_and_scale_surface (cb : Callbacks) (s : WaylandWindowState)
    (size : Option Size) (scale : Option ℚ) :
    (set_size_and_scale cb s size scale).1.surface = s.surface := by
  obtain ⟨b, sc, h⟩ := set_size_and_scale_shape cb s size scale
  rw [h]

lemma set_size_and_scale_ack (cb : Callbacks) (s : WaylandWindowState)
    (size : Option Size) (scale : Option ℚ) :
    (set_size_and_scale cb s size scale).1.acknowledged_first_configure =
      s.acknowledged_first_configure := by
  obtain ⟨b, sc, h⟩ := set_size_and_scale_shape cb s size scale
  rw [h]

lemma set_size_and_scale_flags (cb : Callbacks) (s : WaylandWindowState)
    (size : Option Size) (scale : Option ℚ) :
    ((set_size_and_scale cb s size scale).1.fullscreen = s.fullscreen) ∧
      ((set_size_and_scale cb s size scale).1.maximized = s.maximized) ∧
      ((set_size_and_scale cb s size scale).1.tiling = s.tiling) ∧
      ((set_size_and_scale cb s size scale).1.in_progress_configure =
        s.in_progress_configure) := by
  obtain ⟨b, sc, h⟩ := set_size_and_scale_shape cb s size scale
  rw [h]
  exact ⟨rfl, rfl, rfl, rfl⟩

lemma set_size_and_scale_no_frame (cb : Callbacks) (s : WaylandWindowState)
    (size : Option Size) (scale : Option ℚ) :
    countFrameRequests (set_size_and_scale cb s size scale).2 = 0 := by
  unfold set_size_and_scale
  split
  · rfl
  · rcases size with _ | sz <;> rcases scale with _ | sc₀ <;> dsimp <;>
      split_ifs <;> rfl

lemma commit_window_controls_fields (cb : Callbacks)
    (s : WaylandWindowState) :
    ((commit_window_controls cb s).1.maximized = s.maximized) ∧
      ((commit_window_controls cb s).1.in_progress_configure =
        s.in_progress_configure) ∧
      ((commit_window_controls cb s).1.window_bounds = s.window_bounds) ∧
      ((commit_window_controls cb s).1.surface = s.surface) ∧
      ((commit_window_controls cb s).1.acknowledged_first_configure =
        s.acknowledged_first_configure) := by
  unfold commit_window_controls
  rcases hipw : s.in_progress_window_controls with _ | wc <;>
    exact ⟨rfl, rfl, rfl, rfl, rfl⟩

lemma commit_window_controls_no_frame (cb : Callbacks)
    (s : WaylandWindowState) :
    countFrameRequests (commit_window_controls cb s).2 = 0 := by
  obtain ⟨rf, inp, rs, scl, cl, ap⟩ := cb
  obtain ⟨ack, surf, vp, outs, disp, b, sc, ih, dec, bg, fs, mx, til, wb,
    ipc, ipw, wcon, ins, bl, bm⟩ := s
  rcases ipw with _ | wc <;> cases ap <;> rfl

lemma ack_and_finish_state (cb : Callbacks) (s : WaylandWindowState)
    (serial : Nat) :
    (ack_and_finish cb s serial).1 =
      { s with acknowledged_first_configure := true } := by
  obtain ⟨ack, surf, vp, outs, disp, b, sc, ih, dec, bg, fs, mx, til, wb,
    ipc, ipw, wcon, ins, bl, bm⟩ := s
  unfold ack_and_finish
  cases ack <;> rfl

lemma ack_and_finish_window_bounds (cb : Callbacks) (s : WaylandWindowState)
    (serial : Nat) :
    (ack_and_finish cb s serial).1.window_bounds = s.window_bounds := by
  rw [ack_and_finish_state]

lemma ack_and_finish_frames (cb : Callbacks) (s : WaylandWindowState)
    (serial : Nat) :
    countFrameRequests (ack_and_finish cb s serial).2 =
      if s.acknowledged_first_configure then 0 else 1 := by
  obtain ⟨rf, inp, rs, scl, cl, ap⟩ := cb
  obtain ⟨ack, surf, vp, outs, disp, b, sc, ih, dec, bg, fs, mx, til, wb,
    ipc, ipw, wcon, ins, bl, bm⟩ := s
  unfold ack_and_finish frame
  cases ack <;> cases rf <;> rfl

lemma commit_configure_none (cb : Callbacks) (s : WaylandWindowState)
    (h : s.in_progress_configure = none) : commit_configure cb s = (s, []) := by
  unfold commit_configure
  rw [h]

lemma commit_configure_ack_surface_frames (cb : Callbacks)
    (s : WaylandWindowState) :
    ((commit_configure cb s).1.acknowledged_first_configure =
        s.acknowledged_first_configure) ∧
      ((commit_configure cb s).1.surface = s.surface) ∧
      (countFrameRequests (commit_configure cb s).2 = 0) := by
  unfold commit_configure
  rcases hipc : s.in_progress_configure with _ | c
  · exact ⟨rfl, rfl, rfl⟩
  · dsimp only
    split
    · simp only [resize]
      refine ⟨?_, ?_, set_size_and_scale_no_frame _ _ _ _⟩
      · rw [set_size_and_scale_ack]
        split <;> (try split) <;> rfl
      · rw [set_size_and_scale_surface]
        split <;> (try split) <;> rfl
    · refine ⟨?_, ?_, rfl⟩ <;> (split <;> (try split) <;> rfl)

lemma commit_configure_flags (cb : Callbacks) (s : WaylandWindowState)
    (c : InProgressConfigure) (h : s.in_progress_configure = some c) :
    ((commit_configure cb s).1.fullscreen = c.fullscreen) ∧
      ((commit_configure cb s).1.maximized = c.maximized) ∧
      ((commit_configure cb s).1.tiling = c.tiling) ∧
      ((commit_configure cb s).1.in_progress_configure = none) := by
  unfold commit_configure
  rw [h]
  dsimp only
  split
  · simp only [resize]
    obtain ⟨hf, hm, ht, hi⟩ := set_size_and_scale_flags cb _ (some _) none
    refine ⟨?_, ?_, ?_, ?_⟩ <;>
      [rw [hf]; rw [hm]; rw [ht]; rw [hi]] <;>
      (split <;> (try split) <;> rfl)
  · refine ⟨?_, ?_, ?_, ?_⟩ <;> (split <;> (try split) <;> rfl)

lemma commit_configure_unmaximize (cb : Callbacks) (s : WaylandWindowState)
    (c : InProgressConfigure) (h : s.in_progress_configure = some c)
    (hm : s.maximized = true) (hcm : c.maximized = false)
    (hcf : c.fullscreen = false) :
    (commit_configure cb s).1.window_bounds =
      ⟨Point.default, s.window_bounds.size⟩ := by
  unfold commit_configure
  rw [h]
  dsimp only
  rw [hm, hcm, hcf]
  simp only [Bool.not_false, Bool.and_self, if_true, Bool.true_and]
  rw [resize, set_size_and_scale_window_bounds]

/-- C1 (amended): acknowledging a configure whose pending payload leaves
maximized (maximized `true → false`, neither fullscreen nor maximized
afterwards) restores the saved `window_bounds` *size* captured before the
maximize began — not a size computed via `compute_outer_size` — while the
origin is reset to the zero point. -/
theorem C1_unmaximize_restores_saved_size (cb : Callbacks)
    (s : WaylandWindowState) (serial : Nat) (c : InProgressConfigure)
    (hk : s.surface = .Xdg) (hm : s.maximized = true)
    (hc : s.in_progress_configure = some c)
    (hcm : c.maximized = false) (hcf : c.fullscreen = false) :
    (handle_xdg_surface_event cb s serial).1.window_bounds =
      ⟨Point.default, s.window_bounds.size⟩ := by
  obtain ⟨hwm, hwipc, hwwb, hwsf, hwack⟩ := commit_window_controls_fields cb s
  unfold handle_xdg_surface_event
  rw [if_neg (by simp [hk])]
  dsimp only
  rw [ack_and_finish_window_bounds,
    commit_configure_unmaximize cb _ c (hwipc.trans hc) (hwm.trans hm)
      hcm hcf, hwwb]

/-- Concrete instantiation of the C1 theorem. -/
theorem C1_witness :
    (handle_xdg_surface_event noCallbacks cxState 7).1.window_bounds =
      ⟨Point.default, ⟨300, 200⟩⟩ :=
  C1_unmaximize_restores_saved_size noCallbacks cxState 7
    ⟨some ⟨800, 600⟩, false, false, Tiling.default⟩ rfl rfl rfl rfl rfl

/-- C1 counterexample: starting from saved `window_bounds` with origin
(10, 10), un-maximizing yields `window_bounds` with origin reset to (0, 0),
so the resulting `window_bounds` does not equal the value captured before
the maximize began. -/
theorem C1_counterexample :
    (handle_xdg_surface_event noCallbacks cxState 7).1.window_bounds ≠
      cxState.window_bounds := by
  decide

lemma countFrameRequests_append (a b : List Effect) :
    countFrameRequests (a ++ b) =
      countFrameRequests a + countFrameRequests b := by
  simp [countFrameRequests, List.countP_append]

lemma handle_xdg_surface_event_spec (cb : Callbacks) (s : WaylandWindowState)
    (serial : Nat) :
    ((handle_xdg_surface_event cb s serial).1.surface = s.surface) ∧
      ((handle_xdg_surface_event cb s serial).1.acknowledged_first_configure =
        (s.acknowledged_first_configure || decide (s.surface = .Xdg))) ∧
      (countFrameRequests (handle_xdg_surface_event cb s serial).2 =
        if s.surface = .Xdg ∧ s.acknowledged_first_configure = false then 1
        else 0) := by
  obtain ⟨hwm, hwipc, hwwb, hwsf, hwack⟩ := commit_window_controls_fields cb s
  obtain ⟨hca, hcs, hcf⟩ :=
    commit_configure_ack_surface_frames cb (commit_window_controls cb s).1
  by_cases hx : s.surface = .Xdg
  · unfold handle_xdg_surface_event
    rw [if_neg (by simp [hx])]
    dsimp only
    refine ⟨?_, ?_, ?_⟩
    · rw [ack_and_finish_state]
      dsimp only
      rw [hcs, hwsf]
    · rw [ack_and_finish_state]
      simp [hx]
    · rw [countFrameRequests_append, countFrameRequests_append,
        commit_window_controls_no_frame, hcf, ack_and_finish_frames,
        hca, hwack]
      cases hack : s.acknowledged_first_configure <;> simp [hx, hack]
  · unfold handle_xdg_surface_event
    rw [if_pos (by simp [hx])]
    simp [hx, countFrameRequests]

lemma handle_layer_surface_spec (cb : Callbacks) (s : WaylandWindowState)
    (serial width height : Nat) :
    ((handle_layer_surface cb s serial width height).1.surface = s.surface) ∧
      ((handle_layer_surface cb s serial width
          height).1.acknowledged_first_configure =
        (s.acknowledged_first_configure || decide (s.surface = .Layer))) ∧
      (countFrameRequests (handle_layer_surface cb s serial width height).2 =
        if s.surface = .Layer ∧ s.acknowledged_first_configure = false then 1
        else 0) := by
  obtain ⟨rf, inp, rs, scl, cl, ap⟩ := cb
  by_cases hx : s.surface = .Layer
  · unfold handle_layer_surface
    rw [if_neg (by simp [hx])]
    dsimp only
    cases hack : s.acknowledged_first_configure <;>
      cases rf <;>
      simp [hack, hx, frame, countFrameRequests]
  · unfold handle_layer_surface
    rw [if_pos (by simp [hx])]
    simp [hx, countFrameRequests]

lemma handle_toplevel_event_spec (cb : Callbacks) (s : WaylandWindowState)
    (ev : ToplevelEvent) :
    ((handle_toplevel_event cb s ev).2.1.surface = s.surface) ∧
      ((handle_toplevel_event cb s ev).2.1.acknowledged_first_configure =
        s.acknowledged_first_configure) ∧
      (countFrameRequests (handle_toplevel_event cb s ev).2.2.2 = 0) := by
  obtain ⟨rf, inp, rs, scl, cl, ap⟩ := cb
  cases ev with
  | Configure w h states => exact ⟨rfl, rfl, rfl⟩
  | Close =>
    rcases scl with _ | b
    · exact ⟨rfl, rfl, rfl⟩
    · cases b <;> cases cl <;> exact ⟨rfl, rfl, rfl⟩
  | WmCapabilities caps => exact ⟨rfl, rfl, rfl⟩

lemma step_spec (cb : Callbacks) (s : WaylandWindowState) (e : WEvent) :
    ((step cb s e).2.1.surface = s.surface) ∧
      ((step cb s e).2.1.acknowledged_first_configure =
        (s.acknowledged_first_configure || isAckEvent s.surface e)) ∧
      (countFrameRequests (step cb s e).2.2 =
        if s.acknowledged_first_configure = false ∧
            isAckEvent s.surface e = true then 1
        else 0) := by
  cases e with
  | xdgConfigure serial =>
    obtain ⟨h1, h2, h3⟩ := handle_xdg_surface_event_spec cb s serial
    refine ⟨h1, ?_, ?_⟩
    · rw [step, h2, isAckEvent]
    · rw [step, h3, isAckEvent]
      by_cases hx : s.surface = .Xdg <;>
        cases hack : s.acknowledged_first_configure <;> simp [hx, hack]
  | layerConfigure serial width height =>
    obtain ⟨h1, h2, h3⟩ := handle_layer_surface_spec cb s serial width height
    refine ⟨h1, ?_, ?_⟩
    · rw [step, h2, isAckEvent]
    · rw [step, h3, isAckEvent]
      by_cases hx : s.surface = .Layer <;>
        cases hack : s.acknowledged_first_configure <;> simp [hx, hack]
  | toplevel ev =>
    obtain ⟨h1, h2, h3⟩ := handle_toplevel_event_spec cb s ev
    refine ⟨h1, ?_, ?_⟩
    · rw [step, h2, isAckEvent]
      simp
    · rw [step, h3, isAckEvent]
      simp

lemma run_spec (evts : List WEvent) : ∀ (cb : Callbacks)
    (s : WaylandWindowState),
    ((run cb s evts).2.1.surface = s.surface) ∧
      ((run cb s evts).2.1.acknowledged_first_configure =
        (s.acknowledged_first_configure ||
          evts.any (isAckEvent s.surface))) ∧
      (countFrameRequests (run cb s evts).2.2 =
        if s.acknowledged_first_configure = false ∧
            evts.any (isAckEvent s.surface) = true then 1
        else 0) := by
  induction evts with
  | nil => intro cb s; simp [run, countFrameRequests]
  | cons e es ih =>
    intro cb s
    obtain ⟨h1, h2, h3⟩ := step_spec cb s e
    obtain ⟨g1, g2, g3⟩ := ih (step cb s e).1 (step cb s e).2.1
    unfold run
    dsimp only
    refine ⟨?_, ?_, ?_⟩
    · rw [g1, h1]
    · rw [g2, h2, h1, List.any_cons]
      simp [Bool.or_assoc]
    · rw [countFrameRequests_append, h3, g3, h2, h1, List.any_cons]
      cases hack : s.acknowledged_first_configure <;>
        cases hae : isAckEvent s.surface e <;>
        simp

/-- C3: over any event sequence from a fresh window, the first acknowledged
configure — xdg path or layer path — and only that one sets
`acknowledged_first_configure` and requests exactly one frame callback;
subsequent acknowledged configures request none. -/
theorem C3_first_ack_single_frame (surface : SurfaceKind)
    (viewport bm : Bool) (bounds : Bounds) (cb : Callbacks)
    (evts : List WEvent) :
    (countFrameRequests
        (run cb (WaylandWindowState.new surface viewport bm bounds)
          evts).2.2 =
      if evts.any (isAckEvent surface) = true then 1 else 0) ∧
      ((run cb (WaylandWindowState.new surface viewport bm bounds)
          evts).2.1.acknowledged_first_configure =
        evts.any (isAckEvent surface)) := by
  obtain ⟨h1, h2, h3⟩ :=
    run_spec evts cb (WaylandWindowState.new surface viewport bm bounds)
  exact ⟨by rw [h3]; simp [WaylandWindowState.new],
    by rw [h2]; simp [WaylandWindowState.new]⟩

lemma commit_window_controls_flags (cb : Callbacks) (s : WaylandWindowState) :
    ((commit_window_controls cb s).1.fullscreen = s.fullscreen) ∧
      ((commit_window_controls cb s).1.tiling = s.tiling) := by
  unfold commit_window_controls
  rcases hipw : s.in_progress_window_controls with _ | wc <;> exact ⟨rfl, rfl⟩

lemma ack_and_finish_flags (cb : Callbacks) (s : WaylandWindowState)
    (serial : Nat) :
    ((ack_and_finish cb s serial).1.fullscreen = s.fullscreen) ∧
      ((ack_and_finish cb s serial).1.maximized = s.maximized) ∧
      ((ack_and_finish cb s serial).1.tiling = s.tiling) ∧
      ((ack_and_finish cb s serial).1.in_progress_configure =
        s.in_progress_configure) := by
  rw [ack_and_finish_state]
  exact ⟨rfl, rfl, rfl, rfl⟩

lemma handle_layer_surface_flags (cb : Callbacks) (s : WaylandWindowState)
    (serial width height : Nat) :
    ((handle_layer_surface cb s serial width height).1.fullscreen =
        s.fullscreen) ∧
      ((handle_layer_surface cb s serial width height).1.maximized =
        s.maximized) ∧
      ((handle_layer_surface cb s serial width height).1.tiling = s.tiling) ∧
      ((handle_layer_surface cb s serial width
          height).1.in_progress_configure = s.in_progress_configure) := by
  unfold handle_layer_surface
  split
  · exact ⟨rfl, rfl, rfl, rfl⟩
  · dsimp only
    split <;> exact ⟨rfl, rfl, rfl, rfl⟩

lemma step_tiling_inv (cb : Callbacks) (s : WaylandWindowState) (e : WEvent)
    (h1 : s.fullscreen = true ∨ s.maximized = true → s.tiling = Tiling.tiled)
    (h2 : ∀ c, s.in_progress_configure = some c →
      c.fullscreen = true ∨ c.maximized = true → c.tiling = Tiling.tiled) :
    ((step cb s e).2.1.fullscreen = true ∨
        (step cb s e).2.1.maximized = true →
      (step cb s e).2.1.tiling = Tiling.tiled) ∧
      (∀ c, (step cb s e).2.1.in_progress_configure = some c →
        c.fullscreen = true ∨ c.maximized = true →
          c.tiling = Tiling.tiled) := by
  cases e with
  | xdgConfigure serial =>
    rw [step]
    dsimp only
    by_cases hx : s.surface = .Xdg
    · unfold handle_xdg_surface_event
      rw [if_neg (by simp [hx])]
      dsimp only
      obtain ⟨haf, ham, hat, hai⟩ := ack_and_finish_flags cb
        (commit_configure cb (commit_window_controls cb s).1).1 serial
      obtain ⟨hwm, hwipc, hwwb, hwsf, hwack⟩ :=
        commit_window_controls_fields cb s
      obtain ⟨hwf, hwt⟩ := commit_window_controls_flags cb s
      rcases hipc : (commit_window_controls cb s).1.in_progress_configure
        with _ | c
      · rw [commit_configure_none cb _ hipc] at haf ham hat hai ⊢
        constructor
        · rw [haf, ham, hat, hwf, hwm, hwt]
          exact h1
        · intro c hc
          rw [hai, hipc] at hc
          cases hc
      · obtain ⟨hcf, hcm, hct, hci⟩ := commit_configure_flags cb _ c hipc
        constructor
        · rw [haf, ham, hat, hcf, hcm, hct]
          exact h2 c (hwipc.symm.trans hipc)
        · intro d hd
          rw [hai, hci] at hd
          cases hd
    · unfold handle_xdg_surface_event
      rw [if_pos (by simp [hx])]
      exact ⟨h1, h2⟩
  | layerConfigure serial width height =>
    rw [step]
    dsimp only
    obtain ⟨hf, hm, ht, hi⟩ :=
      handle_layer_surface_flags cb s serial width height
    constructor
    · rw [hf, hm, ht]
      exact h1
    · intro c hc
      rw [hi] at hc
      exact h2 c hc
  | toplevel ev =>
    rw [step]
    obtain ⟨rf, inp, rs, scl, cl, ap⟩ := cb
    cases ev with
    | Configure w h states =>
      dsimp only [handle_toplevel_event]
      refine ⟨h1, ?_⟩
      intro c hc hfm
      rcases hd : decode_toplevel_states states with ⟨fs, mx, tl⟩
      rw [hd] at hc
      dsimp only at hc
      rw [Option.some_inj] at hc
      subst hc
      dsimp only at hfm ⊢
      rcases hfm with hf | hm
      · rw [hf]
        simp
      · rw [hm]
        simp
    | Close =>
      rcases scl with _ | b
      · exact ⟨h1, h2⟩
      · cases b <;> cases cl <;> exact ⟨h1, h2⟩
    | WmCapabilities caps => exact ⟨h1, h2⟩

lemma run_tiling_inv (evts : List WEvent) : ∀ (cb : Callbacks)
    (s : WaylandWindowState),
    (s.fullscreen = true ∨ s.maximized = true → s.tiling = Tiling.tiled) →
    (∀ c, s.in_progress_configure = some c →
      c.fullscreen = true ∨ c.maximized = true → c.tiling = Tiling.tiled) →
    ((run cb s evts).2.1.fullscreen = true ∨
        (run cb s evts).2.1.maximized = true →
      (run cb s evts).2.1.tiling = Tiling.tiled) := by
  induction evts with
  | nil => intro cb s h1 h2; simpa [run] using h1
  | cons e es ih =>
    intro cb s h1 h2
    obtain ⟨g1, g2⟩ := step_tiling_inv cb s e h1 h2
    unfold run
    dsimp only
    exact ih (step cb s e).1 (step cb s e).2.1 g1 g2

/-- C4: in every state reachable from a fresh window through any event
sequence, fullscreen or maximized forces all four tiling edges, whatever
tiled-edge flags the compositor reported. -/
theorem C4_fullscreen_maximized_forces_full_tiling (surface : SurfaceKind)
    (viewport bm : Bool) (bounds : Bounds) (cb : Callbacks)
    (evts : List WEvent)
    (h : (run cb (WaylandWindowState.new surface viewport bm bounds)
          evts).2.1.fullscreen = true ∨
        (run cb (WaylandWindowState.new surface viewport bm bounds)
          evts).2.1.maximized = true) :
    (run cb (WaylandWindowState.new surface viewport bm bounds)
        evts).2.1.tiling = Tiling.tiled := by
  refine run_tiling_inv evts cb _ ?_ ?_ h
  · rintro (hf | hm)
    · simp [WaylandWindowState.new] at hf
    · simp [WaylandWindowState.new] at hm
  · intro c hc
    simp [WaylandWindowState.new] at hc

/-- Concrete instantiation of the C4 theorem: a maximize configure followed
by its acknowledgment leaves the window fully tiled. -/
theorem C4_witness :
    (run noCallbacks (WaylandWindowState.new .Xdg false false sampleBounds)
        [.toplevel (.Configure 0 0 [.Maximized]),
         .xdgConfigure 1]).2.1.tiling = Tiling.tiled :=
  C4_fullscreen_maximized_forces_full_tiling .Xdg false false sampleBounds
    noCallbacks [.toplevel (.Configure 0 0 [.Maximized]), .xdgConfigure 1]
    (Or.inr (by decide))

/-- C5: for every bounds, inset, and tiling, the window geometry declared to
the compositor — `inset_by_tiling` on the zero-origin bounds with each size
component at or below zero clamped to 1 — never has a non-positive width or
height. -/
theorem C5_declared_geometry_positive (b : Bounds) (i : Int) (t : Tiling) :
    0 < (declared_window_geometry b i t).size.width ∧
      0 < (declared_window_geometry b i t).size.height ∧
      (declared_window_geometry b i t).size.width =
        (if (inset_by_tiling b.map_origin_zero i t).size.width ≤ 0 then 1
         else (inset_by_tiling b.map_origin_zero i t).size.width) ∧
      (declared_window_geometry b i t).size.height =
        (if (inset_by_tiling b.map_origin_zero i t).size.height ≤ 0 then 1
         else (inset_by_tiling b.map_origin_zero i t).size.height) := by
  refine ⟨?_, ?_, rfl, rfl⟩ <;>
    · unfold declared_window_geometry
      dsimp only
      split <;> omega

/-- C8: `compute_outer_size` is the identity when no inset is set, and with
an inset adds it to the width for each untiled horizontal edge and to the
height for each untiled vertical edge. -/
theorem C8_compute_outer_size_spec (i : Int) (sz : Size) (t : Tiling)
    (o : Option Size) :
    compute_outer_size none o t = o ∧
      compute_outer_size (some i) none t = none ∧
      compute_outer_size (some i) (some sz) t =
        some ⟨sz.width + (if t.left then 0 else i) + (if t.right then 0 else i),
              sz.height + (if t.top then 0 else i) +
                (if t.bottom then 0 else i)⟩ := by
  refine ⟨rfl, rfl, ?_⟩
  rcases t with ⟨top, bottom, left, right⟩
  rcases sz with ⟨w, h⟩
  cases top <;> cases bottom <;> cases left <;> cases right <;>
    simp [compute_outer_size, Size.mk.injEq]

/-- C7: `is_transparent` holds exactly when decorations are client-drawn or
the background is not opaque; `update_window` declares an opaque region
exactly when decorations are server-drawn and the background is opaque, and
clears the opaque-region hint in every other case. -/
theorem C7_transparency_and_opaque_region (s : WaylandWindowState) :
    (is_transparent s = true ↔
        (s.decorations = .Client ∨ s.background_appearance ≠ .Opaque)) ∧
      (Effect.setOpaqueRegion (some (opaque_area s)) ∈ (update_window s).2 ↔
        (s.decorations = .Server ∧ s.background_appearance = .Opaque)) ∧
      (Effect.setOpaqueRegion none ∈ (update_window s).2 ↔
        ¬(s.decorations = .Server ∧ s.background_appearance = .Opaque)) := by
  obtain ⟨ack, surf, vp, outs, disp, b, sc, ih, dec, bg, fs, mx, til, wb,
    ipc, ipw, wc, ins, blur, bm⟩ := s
  cases dec <;> cases bg <;> cases bm <;> cases blur <;>
    simp [update_window, is_transparent]

/-- Concrete instantiation of the C7 theorem: a server-decorated opaque
window declares its opaque area. -/
theorem C7_witness :
    Effect.setOpaqueRegion
        (some (opaque_area { baseState with decorations := .Server })) ∈
      (update_window { baseState with decorations := .Server }).2 :=
  (C7_transparency_and_opaque_region
    { baseState with decorations := .Server }).2.1.mpr ⟨rfl, rfl⟩

/-- C2 (amended): on a toplevel close request, a registered should-close
predicate is invoked and its result returned (`true` when none is
registered); the close/teardown callback is driven exactly when a
registered predicate answers `true` and a close callback is registered;
the window state is untouched. -/
theorem C2_close_request_amended (cb : Callbacks) (s : WaylandWindowState) :
    (handle_toplevel_event cb s .Close).2.2.1 = cb.should_close.getD true ∧
      (handle_toplevel_event cb s .Close).2.1 = s ∧
      (Effect.closeCallbackInvoked ∈ (handle_toplevel_event cb s .Close).2.2.2 ↔
        (cb.should_close = some true ∧ cb.close = true)) ∧
      (∀ b, cb.should_close = some b →
        Effect.shouldCloseInvoked b ∈ (handle_toplevel_event cb s .Close).2.2.2) ∧
      (cb.should_close = none →
        (handle_toplevel_event cb s .Close).2.2.2 = []) := by
  obtain ⟨rf, inp, rs, sc, cl, ap⟩ := cb
  rcases sc with _ | b
  · simp [handle_toplevel_event]
  · cases b <;> cases cl <;> simp [handle_toplevel_event]

/-- Concrete instantiation of the C2 theorem: predicate registered and
answering true, close callback registered, so the close callback runs. -/
theorem C2_witness :
    Effect.closeCallbackInvoked ∈
      (handle_toplevel_event
        { noCallbacks with should_close := some true, close := true }
        baseState .Close).2.2.2 :=
  (C2_close_request_amended
    { noCallbacks with should_close := some true, close := true }
    baseState).2.2.1.mpr ⟨rfl, rfl⟩

/-- C2 counterexample: with no should-close predicate registered but a close
callback registered, the handler answers `true` (allow close) yet the
registered close callback is not driven, contradicting the claim that the
close sequence is driven whenever no predicate is registered. -/
theorem C2_counterexample :
    (handle_toplevel_event { noCallbacks with close := true } baseState
        .Close).2.2.1 = true ∧
      Effect.closeCallbackInvoked ∉
        (handle_toplevel_event { noCallbacks with close := true } baseState
          .Close).2.2.2 := by
  constructor
  · rfl
  · simp [handle_toplevel_event, noCallbacks]

/-- C9: `set_size_and_scale` leaves the state untouched and performs no
renderer, resize-callback or viewport action when every provided argument
equals the current value; otherwise it installs the provided values,
informs the renderer of the device-pixel drawable size, invokes the resize
callback (when registered) once with the new logical size and scale, and
sets the viewport destination when a viewport exists. -/
theorem C9_set_size_and_scale_funnel (cb : Callbacks) (s : WaylandWindowState)
    (size : Option Size) (scale : Option ℚ) :
    ((∀ sz ∈ size, sz = s.bounds.size) → (∀ sc ∈ scale, sc = s.scale) →
      set_size_and_scale cb s size scale = (s, [])) ∧
      (¬((∀ sz ∈ size, sz = s.bounds.size) ∧ (∀ sc ∈ scale, sc = s.scale)) →
        set_size_and_scale cb s size scale =
          ({ s with
              bounds := { s.bounds with size := size.getD s.bounds.size },
              scale := scale.getD s.scale },
            [Effect.rendererUpdateDrawableSize
                (((size.getD s.bounds.size).width : ℚ) * scale.getD s.scale)
                (((size.getD s.bounds.size).height : ℚ) * scale.getD s.scale)]
              ++ (if cb.resize then
                    [Effect.resizeCallback (size.getD s.bounds.size)
                      (scale.getD s.scale)]
                  else [])
              ++ (if s.viewport then
                    [Effect.viewportSetDestination
                      (size.getD s.bounds.size).width
                      (size.getD s.bounds.size).height]
                  else []))) := by
  constructor
  · intro h1 h2
    rcases size with _ | sz <;> rcases scale with _ | sc <;>
      simp_all [set_size_and_scale]
  · intro h
    rcases size with _ | sz <;> rcases scale with _ | sc <;>
      simp_all [set_size_and_scale, to_device_pixels]

/-- Concrete instantiation of the C9 theorem: changing both size and scale
updates state and emits the renderer, resize and viewport actions. -/
theorem C9_witness :
    set_size_and_scale { noCallbacks with resize := true } baseState
        (some ⟨400, 300⟩) (some 2) =
      ({ baseState with
          bounds := { baseState.bounds with size := ⟨400, 300⟩ },
          scale := 2 },
        [Effect.rendererUpdateDrawableSize ((400 : ℚ) * 2) ((300 : ℚ) * 2),
         Effect.resizeCallback ⟨400, 300⟩ 2,
         Effect.viewportSetDestination 400 300]) := by
  have h := (C9_set_size_and_scale_funnel { noCallbacks with resize := true }
    baseState (some ⟨400, 300⟩) (some 2)).2 (by
      rintro ⟨h1, -⟩
      exact absurd (h1 _ rfl) (by decide))
  simpa using h

/-- C10: the IME operations and the key-forwarding step never change the
window state (the detached input handler is always restored, so a handler
is attached afterwards iff one was attached before); with no handler
attached they perform no text-input action and `get_ime_area` reports
nothing. -/
theorem C10_ime_handler_discipline (cb : Callbacks) (s : WaylandWindowState)
    (ime : ImeInput) (input : PlatformInput) :
    (handle_ime s ime).1 = s ∧
      (get_ime_area s).1 = s ∧
      (handle_input cb s input).1 = s ∧
      (s.input_handler = none →
        handle_ime s ime = (s, []) ∧
        get_ime_area s = (s, none) ∧
        ((handle_input cb s input).2.filter Effect.is_text_input) = []) := by
  obtain ⟨ack, surf, vp, outs, disp, b, sc, ih, dec, bg, fs, mx, til, wb,
    ipc, ipw, wc, ins, bl, bm⟩ := s
  obtain ⟨rf, cinp, rs, scl, cl, ap⟩ := cb
  refine ⟨?_, ?_, ?_, ?_⟩
  · cases ih <;> rfl
  · cases ih <;> rfl
  · rcases cinp with _ | f
    · rcases input with kc | _
      · rcases kc with _ | c
        · rfl
        · cases ih <;> rfl
      · rfl
    · rcases hfi : f input with _ | _ <;>
        rcases input with kc | _ <;>
        simp_all [handle_input] <;>
        (try rcases kc with _ | c) <;>
        cases ih <;> simp [handle_input, hfi]
  · intro hnone
    subst hnone
    refine ⟨rfl, rfl, ?_⟩
    rcases cinp with _ | f
    · rcases input with kc | _
      · rcases kc with _ | c <;> rfl
      · rfl
    · rcases hfi : f input with _ | _ <;>
        rcases input with kc | _ <;>
        (try rcases kc with _ | c) <;>
        simp [handle_input, hfi, Effect.is_text_input]

/-- Concrete instantiation of the C10 theorem: with no handler attached the
IME operations are no-ops. -/
theorem C10_witness :
    handle_ime baseState .UnmarkText = (baseState, []) ∧
      get_ime_area baseState = (baseState, none) := by
  have h := C10_ime_handler_discipline noCallbacks baseState .UnmarkText
    (.keyDown (some "a"))
  exact ⟨(h.2.2.2 rfl).1, (h.2.2.2 rfl).2.1⟩

lemma primary_fold_split : ∀ (l : List (ObjectId × Output)) (a : Int)
    (c : Option (ObjectId × Output)),
    l.foldl (fun acc p => (max acc.1 p.2.scale, select_output acc.2 p))
        (a, c) =
      (l.foldl (fun x p => max x p.2.scale) a, l.foldl select_output c) := by
  intro l
  induction l with
  | nil => intro a c; rfl
  | cons p l ih =>
    intro a c
    simp only [List.foldl_cons]
    exact ih _ _

lemma foldl_max_le_seed : ∀ (l : List (ObjectId × Output)) (a : Int),
    a ≤ l.foldl (fun x p => max x p.2.scale) a := by
  intro l
  induction l with
  | nil => intro a; exact le_refl a
  | cons p l ih =>
    intro a
    simp only [List.foldl_cons]
    exact le_trans (le_max_left _ _) (ih _)

lemma foldl_max_mem_le : ∀ (l : List (ObjectId × Output)) (a : Int)
    (p : ObjectId × Output), p ∈ l →
    p.2.scale ≤ l.foldl (fun x q => max x q.2.scale) a := by
  intro l
  induction l with
  | nil => intro a p hp; cases hp
  | cons q l ih =>
    intro a p hp
    simp only [List.foldl_cons]
    rcases List.mem_cons.mp hp with rfl | hp'
    · exact le_trans (le_max_right _ _) (foldl_max_le_seed l _)
    · exact ih _ p hp'

lemma foldl_max_eq_seed_or_mem : ∀ (l : List (ObjectId × Output)) (a : Int),
    l.foldl (fun x q => max x q.2.scale) a = a ∨
      ∃ p ∈ l, p.2.scale = l.foldl (fun x q => max x q.2.scale) a := by
  intro l
  induction l with
  | nil => intro a; exact Or.inl rfl
  | cons q l ih =>
    intro a
    simp only [List.foldl_cons]
    rcases ih (max a q.2.scale) with h | ⟨p, hp, he⟩
    · rcases max_choice a q.2.scale with hm | hm
      · exact Or.inl (h.trans hm)
      · exact Or.inr ⟨q, List.mem_cons_self _ _, (h.trans hm).symm⟩
    · exact Or.inr ⟨p, List.mem_cons_of_mem _ hp, he⟩

lemma select_output_ne_none (c : Option (ObjectId × Output))
    (p : ObjectId × Output) : select_output c p ≠ none := by
  rcases c with _ | q
  · simp [select_output]
  · simp only [select_output]
    split <;> simp

lemma foldl_select_eq_none : ∀ (l : List (ObjectId × Output))
    (c : Option (ObjectId × Output)),
    l.foldl select_output c = none ↔ (c = none ∧ l = []) := by
  intro l
  induction l with
  | nil => intro c; simp
  | cons p l ih =>
    intro c
    rw [List.foldl_cons, ih]
    simp [select_output_ne_none c p]

lemma foldl_select_first_max : ∀ (l : List (ObjectId × Output))
    (c : Option (ObjectId × Output)) (m : ObjectId × Output),
    l.foldl select_output c = some m → IsFirstMax (c.toList ++ l) m := by
  intro l
  induction l with
  | nil =>
    intro c m h
    simp only [List.foldl_nil] at h
    subst h
    exact ⟨[], [], by simp, by simp, by simp⟩
  | cons p l ih =>
    intro c m h
    rw [List.foldl_cons] at h
    rcases c with _ | q
    · have h' : l.foldl select_output (some p) = some m := by
        simpa [select_output] using h
      simpa using ih (some p) m h'
    · by_cases hpq : p.2.scale > q.2.scale
      · have h' : l.foldl select_output (some p) = some m := by
          simpa [select_output, hpq] using h
        obtain ⟨l₁, l₂, hL, hpre, hall⟩ := ih (some p) m h'
        simp only [Option.toList_some, List.singleton_append] at hL hall
        refine ⟨q :: l₁, l₂, by simp [hL], ?_, ?_⟩
        · intro x hx
          rcases List.mem_cons.mp hx with rfl | hx'
          · exact lt_of_lt_of_le hpq (hall p (List.mem_cons_self _ _))
          · exact hpre x hx'
        · intro x hx
          simp only [Option.toList_some, List.singleton_append] at hx
          rcases List.mem_cons.mp hx with rfl | hx'
          · exact le_of_lt (lt_of_lt_of_le hpq (hall p (List.mem_cons_self _ _)))
          · exact hall x hx'
      · have h' : l.foldl select_output (some q) = some m := by
          simpa [select_output, hpq] using h
        obtain ⟨l₁, l₂, hL, hpre, hall⟩ := ih (some q) m h'
        simp only [Option.toList_some, List.singleton_append] at hL hall
        have hple : p.2.scale ≤ q.2.scale := not_lt.mp hpq
        have hqle : q.2.scale ≤ m.2.scale := hall q (List.mem_cons_self _ _)
        rcases l₁ with _ | ⟨q', t⟩
        · simp only [List.nil_append] at hL
          injection hL with h1 h2
          subst h1
          subst h2
          refine ⟨[], p :: l, by simp, by simp, ?_⟩
          intro x hx
          simp only [Option.toList_some, List.singleton_append] at hx
          rcases List.mem_cons.mp hx with rfl | hx'
          · exact le_refl _
          rcases List.mem_cons.mp hx' with rfl | hx''
          · exact hple
          · exact hall x (List.mem_cons_of_mem _ hx'')
        · rw [List.cons_append] at hL
          injection hL with h1 h2
          subst h1
          have hqlt : q.2.scale < m.2.scale := hpre q (List.mem_cons_self _ _)
          refine ⟨q :: p :: t, l₂, ?_, ?_, ?_⟩
          · simp [h2]
          · intro x hx
            rcases List.mem_cons.mp hx with rfl | hx'
            · exact hqlt
            rcases List.mem_cons.mp hx' with rfl | hx''
            · exact lt_of_le_of_lt hple hqlt
            · exact hpre x (List.mem_cons_of_mem _ hx'')
          · intro x hx
            simp only [Option.toList_some, List.singleton_append] at hx
            rcases List.mem_cons.mp hx with rfl | hx'
            · exact hqle
            rcases List.mem_cons.mp hx' with rfl | hx''
            · exact le_trans hple hqle
            · exact hall x (List.mem_cons_of_mem _ hx'')

/-- C6 (amended): `primary_output_scale` returns the maximum of 1 and the
scales of the tracked outputs (so 1 when `outputs` is empty); it rewrites
`display` by scanning `outputs` with the previous `display` as the initial
candidate, replacing the candidate only on a strictly greater scale — the
result is the first maximal-scale entry of the previous display followed by
`outputs` in iteration order (so a stale previous display wins ties and is
retained when no tracked output strictly exceeds its scale). -/
theorem C6_primary_output_scale_amended (s : WaylandWindowState) :
    (1 ≤ (primary_output_scale s).1) ∧
      (∀ p ∈ s.outputs, p.2.scale ≤ (primary_output_scale s).1) ∧
      ((primary_output_scale s).1 = 1 ∨
        ∃ p ∈ s.outputs, p.2.scale = (primary_output_scale s).1) ∧
      ((primary_output_scale s).2 =
        { s with display := s.outputs.foldl select_output s.display }) ∧
      ((primary_output_scale s).2.display = none ↔
        (s.display = none ∧ s.outputs = [])) ∧
      (∀ m, (primary_output_scale s).2.display = some m →
        IsFirstMax (s.display.toList ++ s.outputs) m) := by
  have hsplit : primary_output_scale s =
      (s.outputs.foldl (fun x p => max x p.2.scale) 1,
        { s with display := s.outputs.foldl select_output s.display }) := by
    unfold primary_output_scale
    rw [primary_fold_split]
  rw [hsplit]
  dsimp only
  exact ⟨foldl_max_le_seed s.outputs 1,
    fun p hp => foldl_max_mem_le s.outputs 1 p hp,
    foldl_max_eq_seed_or_mem s.outputs 1,
    rfl,
    foldl_select_eq_none s.outputs s.display,
    fun m hm => foldl_select_first_max s.outputs s.display m hm⟩

/-- Concrete instantiation of the C6 theorem: the stale previous display
entry, with the strictly largest scale, remains the first maximal entry. -/
theorem C6_witness :
    IsFirstMax (staleState.display.toList ++ staleState.outputs) (0, ⟨3⟩) :=
  (C6_primary_output_scale_amended staleState).2.2.2.2.2 (0, ⟨3⟩) (by decide)

/-- C6 counterexample: with a tracked output of scale 2 but a previous
(no longer tracked) display of scale 3, `primary_output_scale` keeps the
stale display entry, which is not an entry of `outputs` — the claim that
`display` is recomputed to the highest-scale entry of `outputs` fails. -/
theorem C6_counterexample :
    ((primary_output_scale staleState).2.display = some (0, ⟨3⟩)) ∧
      (staleState.outputs ≠ []) ∧
      ((0, (⟨3⟩ : Output)) ∉ staleState.outputs) := by
  decide

end Wayland
